import Mathlib

/-!
# DrawPile board editor (src/client/boardeditor.cpp)

A shallow embedding of the editing facade `BoardEditor` and of its two
variants `LocalBoardEditor` and `RemoteBoardEditor`, followed by the
properties established about them.

The C++ objects an editor points to (user, board, brush source, colour
source, session) are embedded as fields of the editor record, so a member
function that mutates one of them becomes a function from editor record to
editor record.  `Q_ASSERT` is embedded as a trap that stops the call and
reports the state reached at the trap.
-/

namespace drawingboard

/-! ## Qt value types -/

/-- Qt point with integer coordinates. -/
structure QPoint where
  x : Int
  y : Int
deriving DecidableEq

/-- Qt packed pixel value, an unsigned integer of the form 0xAARRGGBB. -/
abbrev QRgb := Nat

/-- Qt colour: an RGB value together with the validity flag read by `QColor::isValid`. -/
structure QColor where
  valid : Bool
  red : Int
  green : Int
  blue : Int
deriving DecidableEq

/-- Qt constructor `QColor(int r, int g, int b)`: a component outside 0..255
makes the colour invalid (all components cleared). -/
def QColor.fromRgb (r g b : Int) : QColor :=
  if 0 ≤ r ∧ r ≤ 255 ∧ 0 ≤ g ∧ g ≤ 255 ∧ 0 ≤ b ∧ b ≤ 255 then
    { valid := true, red := r, green := g, blue := b }
  else
    { valid := false, red := 0, green := 0, blue := 0 }

/-- Qt constructor `QColor(QRgb)`, the conversion applied to the value of
`QImage::pixel` when `colorAt` returns it: always a valid colour. -/
def QColor.fromQRgb (c : QRgb) : QColor :=
  { valid := true
    red := ((c / 65536 % 256 : Nat) : Int)
    green := ((c / 256 % 256 : Nat) : Int)
    blue := ((c % 256 : Nat) : Int) }

/-- Qt rectangle, stored as its left/top and right/bottom coordinates (both inclusive). -/
structure QRect where
  x1 : Int
  y1 : Int
  x2 : Int
  y2 : Int
deriving DecidableEq

/-- Qt constructor `QRect(int x, int y, int width, int height)`. -/
def QRect.fromSize (x y w h : Int) : QRect :=
  { x1 := x, y1 := y, x2 := x + w - 1, y2 := y + h - 1 }

/-- Qt `QRect::contains(const QPoint&, bool proper)`: with `proper` the point
must lie strictly inside the rectangle, not on its edge. -/
def QRect.contains (r : QRect) (p : QPoint) (proper : Bool) : Bool :=
  let l := if r.x2 < r.x1 - 1 then r.x2 else r.x1
  let rr := if r.x2 < r.x1 - 1 then r.x1 else r.x2
  let t := if r.y2 < r.y1 - 1 then r.y2 else r.y1
  let b := if r.y2 < r.y1 - 1 then r.y1 else r.y2
  if proper then
    if p.x ≤ l ∨ p.x ≥ rr then false
    else if p.y ≤ t ∨ p.y ≥ b then false
    else true
  else
    if p.x < l ∨ p.x > rr then false
    else if p.y < t ∨ p.y > b then false
    else true

/-- Qt image: its dimensions and its pixel data, read with `QImage::pixel`. -/
structure QImage where
  width : Nat
  height : Nat
  pixel : QPoint → QRgb

/-- Qt `QImage::rect()`: the rectangle `QRect(0, 0, width(), height())`. -/
def QImage.rect (img : QImage) : QRect :=
  QRect.fromSize 0 0 (img.width : Int) (img.height : Int)

/-! ## Data model

`Brush` and `Point` are declared in headers outside the translated file; the
editor only stores them, passes them on and compares brushes, so they are
type parameters here.  `Brush::operator==` is value equality on the parameter.
-/

/-- Modelled from the spec: `tools::Type` (declared in a header outside the
translated file) enumerates Freehand, Line, Rectangle and further tools;
`LINE` and `RECTANGLE` are the two enumerators the editor names. -/
inductive ToolType where
  | FREEHAND
  | LINE
  | RECTANGLE
  | OTHER (code : Nat)
deriving DecidableEq

/-- The two renderer classes `startPreview` instantiates. -/
inductive PreviewKind where
  | StrokePreview
  | RectanglePreview
deriving DecidableEq

/-- Modelled from the spec: the class `Preview` (preview.h is outside the
translated file) is the transient state tool type, anchor point, current
point and brush snapshot.  The layer and scene passed to its constructor
only place the renderer and are not recorded. -/
structure Preview (Brush Point : Type) where
  kind : PreviewKind
  from_ : Point
  to_ : Point
  brush_ : Brush
deriving DecidableEq

/-- Modelled from the spec: `Preview::preview(from, to, brush)` seeds the
renderer of class `kind` with a start point, a current point and a brush. -/
def Preview.preview {Brush Point : Type} (kind : PreviewKind) (from_ to_ : Point)
    (brush : Brush) : Preview Brush Point :=
  { kind := kind, from_ := from_, to_ := to_, brush_ := brush }

/-- Modelled from the spec: `Preview::moveTo(point)` updates the current point only. -/
def Preview.moveTo {Brush Point : Type} (pv : Preview Brush Point) (point : Point) :
    Preview Brush Point :=
  { pv with to_ := point }

/-- The class `Layer` as far as the editor reads it: the composited image. -/
structure Layer where
  image : QImage

/-- Modelled from the spec: the class `Board` (board.h is outside the
translated file): the composited image layer `image_`, the single optional
tool preview slot `toolpreview_`, and the stroke overlay `previews_` that the
stroke operations of the remote variant grow and clear. -/
structure Board (Brush Point : Type) where
  image_ : Layer
  toolpreview_ : Option (Preview Brush Point)
  previews_ : List Point

/-- Modelled from the spec: `Board::addPreview(point)` appends the point to
the local preview overlay. -/
def Board.addPreview {Brush Point : Type} (b : Board Brush Point) (point : Point) :
    Board Brush Point :=
  { b with previews_ := b.previews_ ++ [point] }

/-- Modelled from the spec: `Board::endPreview()` clears the local preview overlay. -/
def Board.endPreview {Brush Point : Type} (b : Board Brush Point) : Board Brush Point :=
  { b with previews_ := [] }

/-- Modelled from the spec: the class `User` (user.h is outside the translated
file): the acting participant's live brush and the accumulation of the stroke
in progress. -/
structure User (Brush Point : Type) where
  brush_ : Brush
  stroke_ : List Point

/-- Modelled from the spec: `User::brush()` exposes the participant's current brush. -/
def User.brush {Brush Point : Type} (u : User Brush Point) : Brush :=
  u.brush_

/-- Modelled from the spec: `User::setBrush(brush)` accepts the participant's current brush. -/
def User.setBrush {Brush Point : Type} (u : User Brush Point) (brush : Brush) :
    User Brush Point :=
  { u with brush_ := brush }

/-- Modelled from the spec: `interface::BrushSource`, whose `getBrush()`
reports the currently configured brush. -/
structure BrushSource (Brush : Type) where
  getBrush : Brush

/-- Modelled from the spec: `interface::ColorSource`, which accepts a
foreground and a background colour. -/
structure ColorSource where
  foreground : QColor
  background : QColor

/-- Modelled from the spec: `ColorSource::setForeground(color)`. -/
def ColorSource.setForeground (c : ColorSource) (color : QColor) : ColorSource :=
  { c with foreground := color }

/-- Modelled from the spec: `ColorSource::setBackground(color)`. -/
def ColorSource.setBackground (c : ColorSource) (color : QColor) : ColorSource :=
  { c with background := color }

/-- The three outbound messages of the session transport. -/
inductive Message (Brush Point : Type) where
  | toolInfo (brush : Brush)
  | strokeInfo (point : Point)
  | strokeEnd
deriving DecidableEq

/-- Modelled from the spec: `network::SessionState` (sessionstate.h is
outside the translated file) accepts outbound messages in order, fire and
forget; it is the log of the messages sent so far, oldest first. -/
structure SessionState (Brush Point : Type) where
  sent : List (Message Brush Point)

/-- Modelled from the spec: `SessionState::sendToolInfo(brush)`. -/
def SessionState.sendToolInfo {Brush Point : Type} (s : SessionState Brush Point)
    (brush : Brush) : SessionState Brush Point :=
  { sent := s.sent ++ [Message.toolInfo brush] }

/-- Modelled from the spec: `SessionState::sendStrokeInfo(point)`. -/
def SessionState.sendStrokeInfo {Brush Point : Type} (s : SessionState Brush Point)
    (point : Point) : SessionState Brush Point :=
  { sent := s.sent ++ [Message.strokeInfo point] }

/-- Modelled from the spec: `SessionState::sendStrokeEnd()`. -/
def SessionState.sendStrokeEnd {Brush Point : Type} (s : SessionState Brush Point) :
    SessionState Brush Point :=
  { sent := s.sent ++ [Message.strokeEnd] }

/-! ## Calls that may trap on an assertion -/

/-- How a call ends: it returns leaving state `s`, or a `Q_ASSERT` traps with
the state `s` reached at the trap. -/
inductive Outcome (σ : Type) where
  | ok (s : σ)
  | assertFailed (s : σ)

/-- The state a call leaves behind, returned or trapped. -/
def Outcome.state {σ : Type} : Outcome σ → σ
  | .ok s => s
  | .assertFailed s => s

/-- Whether the call returned. -/
def Outcome.returned {σ : Type} : Outcome σ → Bool
  | .ok _ => true
  | .assertFailed _ => false

/-- Sequencing: the next call runs only when the previous one returned. -/
def Outcome.andThen {σ : Type} (o : Outcome σ) (f : σ → Outcome σ) : Outcome σ :=
  match o with
  | .ok s => f s
  | .assertFailed s => .assertFailed s

/-- Transport of an outcome along a map of states. -/
def Outcome.map {σ τ : Type} (g : σ → τ) : Outcome σ → Outcome τ
  | .ok s => .ok (g s)
  | .assertFailed s => .assertFailed (g s)

/-! ## BoardEditor -/

/-- The base class `BoardEditor`: the user, board, brush source and colour
source bound at construction (`user_`, `board_`, `brush_`, `color_`).  The
constructor asserts the four pointers non-null; here they are values. -/
structure BoardEditor (Brush Point : Type) where
  user_ : User Brush Point
  board_ : Board Brush Point
  brush_ : BrushSource Brush
  color_ : ColorSource

/-- The method `BoardEditor::localBrush`. -/
def BoardEditor.localBrush {Brush Point : Type} (e : BoardEditor Brush Point) : Brush :=
  e.brush_.getBrush

/-- The method `BoardEditor::setLocalForeground`. -/
def BoardEditor.setLocalForeground {Brush Point : Type} (e : BoardEditor Brush Point)
    (color : QColor) : BoardEditor Brush Point :=
  { e with color_ := e.color_.setForeground color }

/-- The method `BoardEditor::setLocalBackground`. -/
def BoardEditor.setLocalBackground {Brush Point : Type} (e : BoardEditor Brush Point)
    (color : QColor) : BoardEditor Brush Point :=
  { e with color_ := e.color_.setBackground color }

/-- What a call of `colorAt` yields: the returned colour, the coordinates it
passed to `QImage::pixel`, and the editor state after the call. -/
structure Sampled (Brush Point : Type) where
  color : QColor
  pixelReads : List QPoint
  editor : BoardEditor Brush Point

/-- The method `BoardEditor::colorAt`: the pixel of the board image when
`img.rect().contains(point, true)`, the colour `QColor(-1,-1,-1)` otherwise.
No member is written, so the editor handed back is the one received. -/
def BoardEditor.colorAt {Brush Point : Type} (e : BoardEditor Brush Point)
    (point : QPoint) : Sampled Brush Point :=
  let img := e.board_.image_.image
  if img.rect.contains point true then
    { color := QColor.fromQRgb (img.pixel point), pixelReads := [point], editor := e }
  else
    { color := QColor.fromRgb (-1) (-1) (-1), pixelReads := [], editor := e }

/-- The assignment `board_->toolpreview_ = slot`. -/
def BoardEditor.assignToolpreview {Brush Point : Type} (e : BoardEditor Brush Point)
    (slot : Option (Preview Brush Point)) : BoardEditor Brush Point :=
  { e with board_ := { e.board_ with toolpreview_ := slot } }

/-- The method `BoardEditor::startPreview`: the two assertions in source
order, then the slot is filled with a fresh `StrokePreview` for LINE and a
fresh `RectanglePreview` otherwise, on which `preview(point, point, brush)`
is called (construction and seeding of the fresh object are one value). -/
def BoardEditor.startPreview {Brush Point : Type} (e : BoardEditor Brush Point)
    (tool : ToolType) (point : Point) (brush : Brush) : Outcome (BoardEditor Brush Point) :=
  if e.board_.toolpreview_.isSome then .assertFailed e
  else if ¬ (tool = ToolType.LINE ∨ tool = ToolType.RECTANGLE) then .assertFailed e
  else
    let kind :=
      if tool = ToolType.LINE then PreviewKind.StrokePreview
      else PreviewKind.RectanglePreview
    .ok (e.assignToolpreview (some (Preview.preview kind point point brush)))

/-- The method `BoardEditor::continuePreview`: asserts that the slot is
occupied, then calls `moveTo(point)` on the preview in it. -/
def BoardEditor.continuePreview {Brush Point : Type} (e : BoardEditor Brush Point)
    (point : Point) : Outcome (BoardEditor Brush Point) :=
  match e.board_.toolpreview_ with
  | none => .assertFailed e
  | some pv => .ok (e.assignToolpreview (some (pv.moveTo point)))

/-- The method `BoardEditor::endPreview`: asserts that the slot is occupied,
then deletes the preview and resets the slot to 0. -/
def BoardEditor.endPreview {Brush Point : Type} (e : BoardEditor Brush Point) :
    Outcome (BoardEditor Brush Point) :=
  match e.board_.toolpreview_ with
  | none => .assertFailed e
  | some _ => .ok (e.assignToolpreview none)

/-- The calls `continuePreview(p1)`, ..., `continuePreview(pn)` made in order. -/
def BoardEditor.continuePreviews {Brush Point : Type} (e : BoardEditor Brush Point) :
    List Point → Outcome (BoardEditor Brush Point)
  | [] => .ok e
  | p :: ps => (e.continuePreview p).andThen (fun e1 => BoardEditor.continuePreviews e1 ps)

/-! ## LocalBoardEditor -/

/-- The class `LocalBoardEditor`: the base class with no member of its own. -/
structure LocalBoardEditor (Brush Point : Type) extends BoardEditor Brush Point

/-- The method `LocalBoardEditor::isCurrentBrush`: `user_->brush() == brush`. -/
def LocalBoardEditor.isCurrentBrush {Brush Point : Type} [DecidableEq Brush]
    (e : LocalBoardEditor Brush Point) (brush : Brush) : Bool :=
  decide (e.user_.brush = brush)

/-- The method `LocalBoardEditor::setTool`: `user_->setBrush(brush)`. -/
def LocalBoardEditor.setTool {Brush Point : Type} (e : LocalBoardEditor Brush Point)
    (brush : Brush) : LocalBoardEditor Brush Point :=
  { e with user_ := e.user_.setBrush brush }

/-! ## RemoteBoardEditor -/

/-- The class `RemoteBoardEditor`: the base class together with the session
`session_` and the cached brush `lastbrush_`. -/
structure RemoteBoardEditor (Brush Point : Type) extends BoardEditor Brush Point where
  session_ : SessionState Brush Point
  lastbrush_ : Brush

/-- The constructor `RemoteBoardEditor::RemoteBoardEditor`.  The three-argument
constructor of `Brush` is declared outside the translated file and is taken
as the parameter `mkBrush`. -/
def RemoteBoardEditor.create {Brush Point : Type}
    (mkBrush : Int → Int → Int → Brush)
    (board : Board Brush Point) (user : User Brush Point)
    (session : SessionState Brush Point)
    (brush : BrushSource Brush) (color : ColorSource) : RemoteBoardEditor Brush Point :=
  { user_ := user, board_ := board, brush_ := brush, color_ := color,
    session_ := session, lastbrush_ := mkBrush 0 0 0 }

/-- The method `RemoteBoardEditor::isCurrentBrush`: `lastbrush_ == brush`. -/
def RemoteBoardEditor.isCurrentBrush {Brush Point : Type} [DecidableEq Brush]
    (r : RemoteBoardEditor Brush Point) (brush : Brush) : Bool :=
  decide (r.lastbrush_ = brush)

/-- The method `RemoteBoardEditor::setTool`: assigns `lastbrush_`, then
calls `session_->sendToolInfo(brush)`; there is no guard. -/
def RemoteBoardEditor.setTool {Brush Point : Type} (r : RemoteBoardEditor Brush Point)
    (brush : Brush) : RemoteBoardEditor Brush Point :=
  { r with lastbrush_ := brush, session_ := r.session_.sendToolInfo brush }

/-- The method `RemoteBoardEditor::addStroke`: `session_->sendStrokeInfo(point)`,
then `board_->addPreview(point)`. -/
def RemoteBoardEditor.addStroke {Brush Point : Type} (r : RemoteBoardEditor Brush Point)
    (point : Point) : RemoteBoardEditor Brush Point :=
  { r with session_ := r.session_.sendStrokeInfo point,
           board_ := r.board_.addPreview point }

/-- The method `RemoteBoardEditor::endStroke`: `session_->sendStrokeEnd()`,
then `board_->endPreview()`. -/
def RemoteBoardEditor.endStroke {Brush Point : Type} (r : RemoteBoardEditor Brush Point) :
    RemoteBoardEditor Brush Point :=
  { r with session_ := r.session_.sendStrokeEnd,
           board_ := r.board_.endPreview }

/-- A member function of the base class called on a remote editor: it acts on
the base part and leaves `session_` and `lastbrush_` as they are. -/
def RemoteBoardEditor.inherited {Brush Point : Type} (r : RemoteBoardEditor Brush Point)
    (f : BoardEditor Brush Point → Outcome (BoardEditor Brush Point)) :
    Outcome (RemoteBoardEditor Brush Point) :=
  Outcome.map (fun b => { r with toBoardEditor := b }) (f r.toBoardEditor)

/-- The assignment `board_->toolpreview_ = slot` on the board of a remote editor. -/
def RemoteBoardEditor.assignToolpreview {Brush Point : Type}
    (r : RemoteBoardEditor Brush Point) (slot : Option (Preview Brush Point)) :
    RemoteBoardEditor Brush Point :=
  { r with toBoardEditor := r.toBoardEditor.assignToolpreview slot }

/-- The inherited `startPreview` on a remote editor. -/
def RemoteBoardEditor.startPreview {Brush Point : Type} (r : RemoteBoardEditor Brush Point)
    (tool : ToolType) (point : Point) (brush : Brush) :
    Outcome (RemoteBoardEditor Brush Point) :=
  r.inherited (fun b => b.startPreview tool point brush)

/-- The inherited `continuePreview` on a remote editor. -/
def RemoteBoardEditor.continuePreview {Brush Point : Type}
    (r : RemoteBoardEditor Brush Point) (point : Point) :
    Outcome (RemoteBoardEditor Brush Point) :=
  r.inherited (fun b => b.continuePreview point)

/-- The inherited `endPreview` on a remote editor. -/
def RemoteBoardEditor.endPreview {Brush Point : Type} (r : RemoteBoardEditor Brush Point) :
    Outcome (RemoteBoardEditor Brush Point) :=
  r.inherited (fun b => b.endPreview)

/-- The calls `continuePreview(p1)`, ..., `continuePreview(pn)` on a remote editor. -/
def RemoteBoardEditor.continuePreviews {Brush Point : Type}
    (r : RemoteBoardEditor Brush Point) :
    List Point → Outcome (RemoteBoardEditor Brush Point)
  | [] => .ok r
  | p :: ps =>
    (r.continuePreview p).andThen (fun r1 => RemoteBoardEditor.continuePreviews r1 ps)

/-- The calls `addStroke(p1)`, ..., `addStroke(pn)` made in order. -/
def RemoteBoardEditor.addStrokes {Brush Point : Type} (r : RemoteBoardEditor Brush Point)
    (points : List Point) : RemoteBoardEditor Brush Point :=
  points.foldl (fun r1 p => r1.addStroke p) r

/-- The call `setTool(brush)` made `k` times in a row. -/
def RemoteBoardEditor.setToolTimes {Brush Point : Type} (r : RemoteBoardEditor Brush Point)
    (brush : Brush) : Nat → RemoteBoardEditor Brush Point
  | 0 => r
  | k + 1 => RemoteBoardEditor.setToolTimes (r.setTool brush) brush k

/-- Modelled from the spec: the caller discipline of section 4.3, a caller
invokes `setTool` only when `isCurrentBrush` returns false. -/
def RemoteBoardEditor.ensureBrush {Brush Point : Type} [DecidableEq Brush]
    (r : RemoteBoardEditor Brush Point) (brush : Brush) : RemoteBoardEditor Brush Point :=
  if r.isCurrentBrush brush = false then r.setTool brush else r

/-- One event in the life of a remote editor: a call of one of its member
functions, or a change of the user's live brush made outside the editor. -/
inductive RemoteEvent (Brush Point : Type) where
  | setTool (brush : Brush)
  | addStroke (point : Point)
  | endStroke
  | startPreview (tool : ToolType) (point : Point) (brush : Brush)
  | continuePreview (point : Point)
  | endPreview
  | setLocalForeground (color : QColor)
  | setLocalBackground (color : QColor)
  | userSetBrush (brush : Brush)

/-- Whether the event is a call of `setTool`. -/
def RemoteEvent.isSetTool {Brush Point : Type} : RemoteEvent Brush Point → Bool
  | .setTool _ => true
  | _ => false

/-- The effect of one event on a remote editor. -/
def RemoteBoardEditor.handle {Brush Point : Type} (r : RemoteBoardEditor Brush Point) :
    RemoteEvent Brush Point → Outcome (RemoteBoardEditor Brush Point)
  | .setTool brush => .ok (r.setTool brush)
  | .addStroke point => .ok (r.addStroke point)
  | .endStroke => .ok r.endStroke
  | .startPreview tool point brush => r.startPreview tool point brush
  | .continuePreview point => r.continuePreview point
  | .endPreview => r.endPreview
  | .setLocalForeground color =>
    .ok { r with toBoardEditor := r.toBoardEditor.setLocalForeground color }
  | .setLocalBackground color =>
    .ok { r with toBoardEditor := r.toBoardEditor.setLocalBackground color }
  | .userSetBrush brush => .ok { r with user_ := r.user_.setBrush brush }

/-- The events handled in order; a trapped assertion ends the run. -/
def RemoteBoardEditor.run {Brush Point : Type} (r : RemoteBoardEditor Brush Point) :
    List (RemoteEvent Brush Point) → Outcome (RemoteBoardEditor Brush Point)
  | [] => .ok r
  | ev :: evs => (r.handle ev).andThen (fun r1 => RemoteBoardEditor.run r1 evs)

/-! ## Sample values -/

/-- A 3 by 3 all-white image. -/
def whiteImage3 : QImage :=
  { width := 3, height := 3, pixel := fun _ => 4294967295 }

/-- A local-style editor over the 3 by 3 white image, with brushes and points
taken to be natural numbers: live brush 7, no preview, empty overlay. -/
def sampleEditor : BoardEditor Nat Nat :=
  { user_ := { brush_ := 7, stroke_ := [] }
    board_ := { image_ := { image := whiteImage3 }, toolpreview_ := none, previews_ := [] }
    brush_ := { getBrush := 7 }
    color_ := { foreground := QColor.fromRgb 0 0 0, background := QColor.fromRgb 255 255 255 } }

/-- A remote editor over the sample editor: nothing sent yet, cached brush 0. -/
def sampleRemote : RemoteBoardEditor Nat Nat :=
  { toBoardEditor := sampleEditor, session_ := { sent := [] }, lastbrush_ := 0 }

/-! ## colorAt -/

/-- The colour `QColor(-1,-1,-1)` is the invalid colour. -/
theorem invalid_color_sentinel :
    QColor.fromRgb (-1) (-1) (-1) = { valid := false, red := 0, green := 0, blue := 0 } := by
  decide

/-- A colour converted from a pixel value is valid, so it is never the
colour `QColor(-1,-1,-1)`. -/
theorem pixel_color_ne_sentinel (c : QRgb) :
    QColor.fromQRgb c ≠ QColor.fromRgb (-1) (-1) (-1) := by
  rw [invalid_color_sentinel]
  intro h
  have hv := congrArg QColor.valid h
  simp [QColor.fromQRgb] at hv

/-- The bounds test of `colorAt` accepts exactly the points strictly inside
the image rectangle. -/
theorem rect_contains_proper_iff (img : QImage) (p : QPoint) :
    img.rect.contains p true = true ↔
      0 < p.x ∧ p.x < (img.width : Int) - 1 ∧ 0 < p.y ∧ p.y < (img.height : Int) - 1 := by
  have hw : (0 : Int) ≤ (img.width : Int) := Int.ofNat_nonneg _
  have hh : (0 : Int) ≤ (img.height : Int) := Int.ofNat_nonneg _
  simp only [QImage.rect, QRect.fromSize, QRect.contains]
  split_ifs <;> simp <;> omega

/-- On a point strictly inside the image rectangle `colorAt` reads that pixel
and returns it as a valid colour. -/
theorem colorAt_interior {Brush Point : Type} (e : BoardEditor Brush Point) (p : QPoint)
    (h : 0 < p.x ∧ p.x < (e.board_.image_.image.width : Int) - 1 ∧
      0 < p.y ∧ p.y < (e.board_.image_.image.height : Int) - 1) :
    e.colorAt p =
      { color := QColor.fromQRgb (e.board_.image_.image.pixel p), pixelReads := [p],
        editor := e } := by
  have hc := (rect_contains_proper_iff e.board_.image_.image p).mpr h
  simp [BoardEditor.colorAt, hc]

/-- On every other point, the first and last row and column of the image
included, `colorAt` returns `QColor(-1,-1,-1)` without reading a pixel. -/
theorem colorAt_not_interior {Brush Point : Type} (e : BoardEditor Brush Point) (p : QPoint)
    (h : ¬ (0 < p.x ∧ p.x < (e.board_.image_.image.width : Int) - 1 ∧
      0 < p.y ∧ p.y < (e.board_.image_.image.height : Int) - 1)) :
    e.colorAt p =
      { color := QColor.fromRgb (-1) (-1) (-1), pixelReads := [], editor := e } := by
  have hc : e.board_.image_.image.rect.contains p true = false := by
    rw [Bool.eq_false_iff, Ne, rect_contains_proper_iff]
    exact h
  simp [BoardEditor.colorAt, hc]

/-- C1, evaluated at a pixel of the first row and column: on the 3 by 3
white image the pixel (0,0) lies inside the board, yet `colorAt` returns the
invalid colour `QColor(-1,-1,-1)`, reads no pixel, and so does not return the
image pixel at that point. -/
theorem colorAt_corner_pixel_invalid :
    (sampleEditor.colorAt { x := 0, y := 0 }).color = QColor.fromRgb (-1) (-1) (-1) ∧
    (sampleEditor.colorAt { x := 0, y := 0 }).color.valid = false ∧
    (sampleEditor.colorAt { x := 0, y := 0 }).pixelReads = [] ∧
    (sampleEditor.colorAt { x := 0, y := 0 }).color ≠
      QColor.fromQRgb (sampleEditor.board_.image_.image.pixel { x := 0, y := 0 }) := by
  decide

/-- C2: for a point outside the image rectangle (x < 0, y < 0, x >= w or
y >= h) `colorAt` returns the invalid colour `QColor(-1,-1,-1)`, passes no
coordinate to `QImage::pixel`, and leaves the editor state as it was. -/
theorem colorAt_outside {Brush Point : Type} (e : BoardEditor Brush Point) (p : QPoint)
    (h : p.x < 0 ∨ p.y < 0 ∨ (e.board_.image_.image.width : Int) ≤ p.x ∨
      (e.board_.image_.image.height : Int) ≤ p.y) :
    (e.colorAt p).color = QColor.fromRgb (-1) (-1) (-1) ∧
    (e.colorAt p).color.valid = false ∧
    (e.colorAt p).pixelReads = [] ∧
    (e.colorAt p).editor = e := by
  have hn : ¬ (0 < p.x ∧ p.x < (e.board_.image_.image.width : Int) - 1 ∧
      0 < p.y ∧ p.y < (e.board_.image_.image.height : Int) - 1) := by omega
  rw [colorAt_not_interior e p hn]
  refine ⟨rfl, ?_, rfl, rfl⟩
  show (QColor.fromRgb (-1) (-1) (-1)).valid = false
  rw [invalid_color_sentinel]

/-- Witness for C2 at the point (3,1), just right of the 3 by 3 image. -/
theorem colorAt_outside_witness :
    ((3 : Int) < 0 ∨ (1 : Int) < 0 ∨
      (sampleEditor.board_.image_.image.width : Int) ≤ 3 ∨
      (sampleEditor.board_.image_.image.height : Int) ≤ 1) ∧
    ((sampleEditor.colorAt { x := 3, y := 1 }).color = QColor.fromRgb (-1) (-1) (-1) ∧
      (sampleEditor.colorAt { x := 3, y := 1 }).color.valid = false ∧
      (sampleEditor.colorAt { x := 3, y := 1 }).pixelReads = [] ∧
      (sampleEditor.colorAt { x := 3, y := 1 }).editor = sampleEditor) :=
  ⟨by decide, colorAt_outside sampleEditor { x := 3, y := 1 } (by decide)⟩

/-! ## Tool preview -/

/-- Writing back the slot an editor already holds changes nothing. -/
theorem assignToolpreview_same {Brush Point : Type} (e : BoardEditor Brush Point) :
    e.assignToolpreview e.board_.toolpreview_ = e := rfl

/-- Of two successive assignments to the slot only the second one counts. -/
theorem assignToolpreview_twice {Brush Point : Type} (e : BoardEditor Brush Point)
    (s t : Option (Preview Brush Point)) :
    (e.assignToolpreview s).assignToolpreview t = e.assignToolpreview t := rfl

/-- With a preview in the slot, a run of `continuePreview` calls returns and
changes nothing but the current point of that preview, which ends at the last
point passed (or stays where it was when no point is passed). -/
theorem continuePreviews_active {Brush Point : Type} (pts : List Point) :
    ∀ (e : BoardEditor Brush Point) (pv : Preview Brush Point),
      e.board_.toolpreview_ = some pv →
      e.continuePreviews pts =
        .ok (e.assignToolpreview (some (pv.moveTo (pts.getLastD pv.to_)))) := by
  induction pts with
  | nil =>
    intro e pv h
    have hpv : pv.moveTo pv.to_ = pv := rfl
    simp only [BoardEditor.continuePreviews, List.getLastD_nil, hpv]
    rw [← h, assignToolpreview_same]
  | cons p ps ih =>
    intro e pv h
    have hstep : e.continuePreview p = .ok (e.assignToolpreview (some (pv.moveTo p))) := by
      simp [BoardEditor.continuePreview, h]
    simp only [BoardEditor.continuePreviews, hstep, Outcome.andThen]
    rw [ih _ (pv.moveTo p) rfl, assignToolpreview_twice]
    rw [List.getLastD_cons]
    rfl

/-- A run of inherited `continuePreview` calls on a remote editor is the run
on its base part, with session and cached brush carried along untouched. -/
theorem remote_continuePreviews_eq {Brush Point : Type} (pts : List Point) :
    ∀ (r : RemoteBoardEditor Brush Point),
      r.continuePreviews pts =
        Outcome.map (fun b => { r with toBoardEditor := b })
          (r.toBoardEditor.continuePreviews pts) := by
  induction pts with
  | nil => intro r; rfl
  | cons p ps ih =>
    intro r
    simp only [RemoteBoardEditor.continuePreviews, BoardEditor.continuePreviews,
      RemoteBoardEditor.continuePreview, RemoteBoardEditor.inherited]
    cases hc : r.toBoardEditor.continuePreview p with
    | ok b =>
      simp only [Outcome.map, Outcome.andThen]
      rw [ih]
      rfl
    | assertFailed b => rfl

/-- C3: preview-protocol violations trap and leave the state as it was, and
every other call returns.  `startPreview` traps, in the unchanged state,
exactly when a preview is already active or the tool is neither LINE nor
RECTANGLE, and returns exactly when the slot is empty and the tool is LINE or
RECTANGLE; `continuePreview` and `endPreview` trap, in the unchanged state,
exactly when the slot is empty, and return exactly when a preview is active. -/
theorem preview_protocol_fail_fast {Brush Point : Type} (e : BoardEditor Brush Point)
    (tool : ToolType) (point : Point) (brush : Brush) :
    (e.startPreview tool point brush = .assertFailed e ↔
      (e.board_.toolpreview_.isSome = true ∨
        ¬ (tool = ToolType.LINE ∨ tool = ToolType.RECTANGLE))) ∧
    ((∃ e1, e.startPreview tool point brush = .ok e1) ↔
      (e.board_.toolpreview_ = none ∧
        (tool = ToolType.LINE ∨ tool = ToolType.RECTANGLE))) ∧
    (e.continuePreview point = .assertFailed e ↔ e.board_.toolpreview_ = none) ∧
    ((∃ e1, e.continuePreview point = .ok e1) ↔ e.board_.toolpreview_.isSome = true) ∧
    (e.endPreview = .assertFailed e ↔ e.board_.toolpreview_ = none) ∧
    ((∃ e1, e.endPreview = .ok e1) ↔ e.board_.toolpreview_.isSome = true) := by
  refine ⟨?_, ?_, ?_, ?_, ?_, ?_⟩
  · unfold BoardEditor.startPreview
    cases hs : e.board_.toolpreview_ with
    | none => by_cases ht : tool = ToolType.LINE ∨ tool = ToolType.RECTANGLE <;> simp [ht]
    | some pv => simp
  · unfold BoardEditor.startPreview
    cases hs : e.board_.toolpreview_ with
    | none => by_cases ht : tool = ToolType.LINE ∨ tool = ToolType.RECTANGLE <;> simp [ht]
    | some pv => simp
  · unfold BoardEditor.continuePreview
    cases hs : e.board_.toolpreview_ <;> simp
  · unfold BoardEditor.continuePreview
    cases hs : e.board_.toolpreview_ <;> simp
  · unfold BoardEditor.endPreview
    cases hs : e.board_.toolpreview_ <;> simp
  · unfold BoardEditor.endPreview
    cases hs : e.board_.toolpreview_ <;> simp

/-- C4: on an editor with no active preview and for a tool that is LINE or
RECTANGLE, `startPreview(tool, a, br)` followed by `continuePreview` on each
point of `pts` returns and leaves in the slot a stroke preview for LINE and a
rectangle preview for RECTANGLE, with start point `a`, brush `br` and current
point the last of `pts` (`a` itself when `pts` is empty); and one
`continuePreview(p)` on an active preview replaces its current point by `p`
and nothing else. -/
theorem startPreview_then_continue {Brush Point : Type} (e : BoardEditor Brush Point)
    (tool : ToolType) (a : Point) (br : Brush) (pts : List Point)
    (hidle : e.board_.toolpreview_ = none)
    (htool : tool = ToolType.LINE ∨ tool = ToolType.RECTANGLE) :
    (e.startPreview tool a br).andThen (fun e1 => e1.continuePreviews pts) =
      .ok (e.assignToolpreview (some
        (Preview.mk
          (if tool = ToolType.LINE then PreviewKind.StrokePreview
            else PreviewKind.RectanglePreview)
          a (pts.getLastD a) br))) ∧
    (∀ (e1 : BoardEditor Brush Point) (pv : Preview Brush Point) (p : Point),
      e1.board_.toolpreview_ = some pv →
      e1.continuePreview p =
        .ok (e1.assignToolpreview (some (Preview.mk pv.kind pv.from_ p pv.brush_)))) := by
  constructor
  · have hstart : e.startPreview tool a br =
        .ok (e.assignToolpreview (some (Preview.preview
          (if tool = ToolType.LINE then PreviewKind.StrokePreview
            else PreviewKind.RectanglePreview) a a br))) := by
      simp [BoardEditor.startPreview, hidle, htool]
    rw [hstart]
    simp only [Outcome.andThen]
    rw [continuePreviews_active pts _ _ rfl, assignToolpreview_twice]
    rfl
  · intro e1 pv p h
    simp [BoardEditor.continuePreview, h, Preview.moveTo]

/-- Witness for C4: a LINE preview anchored at point 0 with brush 7 on the
sample editor, moved to point 1 and then to point 2. -/
theorem startPreview_then_continue_witness :
    (sampleEditor.board_.toolpreview_ = none ∧
      (ToolType.LINE = ToolType.LINE ∨ ToolType.LINE = ToolType.RECTANGLE)) ∧
    (sampleEditor.startPreview ToolType.LINE 0 7).andThen
        (fun e1 => e1.continuePreviews [1, 2]) =
      .ok (sampleEditor.assignToolpreview
        (some (Preview.mk PreviewKind.StrokePreview 0 2 7))) :=
  ⟨⟨rfl, Or.inl rfl⟩,
    (startPreview_then_continue sampleEditor ToolType.LINE 0 7 [1, 2] rfl (Or.inl rfl)).1⟩

/-- C5: on a remote editor with no active preview and for a tool that is LINE
or RECTANGLE, `startPreview` returns with a preview in the slot; after each
further `continuePreview` the call has returned and the state is the initial
one with a preview in the slot; the closing `endPreview` returns the initial
state itself.  So the slot goes empty, occupied, ..., occupied, empty, and
image, overlay, user brush and stroke accumulation, brush and colour source,
sent-message log and cached brush are those of the initial state throughout. -/
theorem preview_round_trip {Brush Point : Type} (r : RemoteBoardEditor Brush Point)
    (tool : ToolType) (a : Point) (br : Brush) (pts : List Point)
    (hidle : r.board_.toolpreview_ = none)
    (htool : tool = ToolType.LINE ∨ tool = ToolType.RECTANGLE) :
    ∃ r1, r.startPreview tool a br = .ok r1 ∧
      (∀ k, k ≤ pts.length →
        ∃ pv, r1.continuePreviews (pts.take k) = .ok (r.assignToolpreview (some pv))) ∧
      ∃ r2, r1.continuePreviews pts = .ok r2 ∧ r2.endPreview = .ok r := by
  have hstart : r.toBoardEditor.startPreview tool a br =
      .ok (r.toBoardEditor.assignToolpreview (some (Preview.preview
        (if tool = ToolType.LINE then PreviewKind.StrokePreview
          else PreviewKind.RectanglePreview) a a br))) := by
    simp [BoardEditor.startPreview, hidle, htool]
  have hrun : ∀ qs : List Point,
      RemoteBoardEditor.continuePreviews
          (r.assignToolpreview (some (Preview.preview
            (if tool = ToolType.LINE then PreviewKind.StrokePreview
              else PreviewKind.RectanglePreview) a a br))) qs =
        .ok (r.assignToolpreview
          (some ((Preview.preview
            (if tool = ToolType.LINE then PreviewKind.StrokePreview
              else PreviewKind.RectanglePreview) a a br).moveTo (qs.getLastD a)))) := by
    intro qs
    rw [remote_continuePreviews_eq, continuePreviews_active qs _ _ rfl]
    rfl
  refine ⟨_, ?_, ?_, _, hrun pts, ?_⟩
  · simp only [RemoteBoardEditor.startPreview, RemoteBoardEditor.inherited, hstart,
      Outcome.map]
    rfl
  · intro k _
    exact ⟨_, hrun (pts.take k)⟩
  · have hback : r.toBoardEditor.assignToolpreview none = r.toBoardEditor := by
      rw [← hidle]
      rfl
    have hend : (r.assignToolpreview (some ((Preview.preview
            (if tool = ToolType.LINE then PreviewKind.StrokePreview
              else PreviewKind.RectanglePreview) a a br).moveTo (pts.getLastD a)))).endPreview =
        .ok { r with toBoardEditor := r.toBoardEditor.assignToolpreview none } := rfl
    rw [hend, hback]

/-- Witness for C5: a LINE preview anchored at point 0 with brush 7 on the
sample remote editor, moved to point 10 and ended. -/
theorem preview_round_trip_witness :
    (sampleRemote.board_.toolpreview_ = none ∧
      (ToolType.LINE = ToolType.LINE ∨ ToolType.LINE = ToolType.RECTANGLE)) ∧
    ∃ r1, sampleRemote.startPreview ToolType.LINE 0 7 = .ok r1 ∧
      (∀ k, k ≤ [10].length →
        ∃ pv, r1.continuePreviews ([10].take k) =
          .ok (sampleRemote.assignToolpreview (some pv))) ∧
      ∃ r2, r1.continuePreviews [10] = .ok r2 ∧ r2.endPreview = .ok sampleRemote :=
  ⟨⟨rfl, Or.inl rfl⟩,
    preview_round_trip sampleRemote ToolType.LINE 0 7 [10] rfl (Or.inl rfl)⟩

/-! ## Remote variant -/

/-- An event other than a call of `setTool` leaves the cached brush alone,
whether the call returns or traps. -/
theorem handle_keeps_lastbrush {Brush Point : Type} (r : RemoteBoardEditor Brush Point)
    (ev : RemoteEvent Brush Point) (h : ev.isSetTool = false) :
    (r.handle ev).state.lastbrush_ = r.lastbrush_ := by
  cases ev with
  | setTool brush => simp [RemoteEvent.isSetTool] at h
  | addStroke point => rfl
  | endStroke => rfl
  | startPreview tool point brush =>
    simp only [RemoteBoardEditor.handle, RemoteBoardEditor.startPreview,
      RemoteBoardEditor.inherited]
    cases r.toBoardEditor.startPreview tool point brush <;> rfl
  | continuePreview point =>
    simp only [RemoteBoardEditor.handle, RemoteBoardEditor.continuePreview,
      RemoteBoardEditor.inherited]
    cases r.toBoardEditor.continuePreview point <;> rfl
  | endPreview =>
    simp only [RemoteBoardEditor.handle, RemoteBoardEditor.endPreview,
      RemoteBoardEditor.inherited]
    cases r.toBoardEditor.endPreview <;> rfl
  | setLocalForeground color => rfl
  | setLocalBackground color => rfl
  | userSetBrush brush => rfl

/-- A run of events with no call of `setTool` among them leaves the cached
brush alone, whether the run completes or ends at a trap. -/
theorem run_keeps_lastbrush {Brush Point : Type} (evs : List (RemoteEvent Brush Point)) :
    ∀ (r : RemoteBoardEditor Brush Point),
      (∀ ev ∈ evs, ev.isSetTool = false) →
      (r.run evs).state.lastbrush_ = r.lastbrush_ := by
  induction evs with
  | nil => intro r _; rfl
  | cons ev evs ih =>
    intro r h
    have hev := handle_keeps_lastbrush r ev (h ev (List.mem_cons_self ev evs))
    have hrest : ∀ ev1 ∈ evs, ev1.isSetTool = false :=
      fun ev1 hm => h ev1 (List.mem_cons_of_mem ev hm)
    simp only [RemoteBoardEditor.run]
    cases hh : r.handle ev with
    | ok r1 =>
      rw [hh] at hev
      simp only [Outcome.andThen]
      rw [ih r1 hrest]
      exact hev
    | assertFailed r1 =>
      rw [hh] at hev
      exact hev

/-- What a run of `addStroke` calls does: one stroke-info message per point
is appended to the sent log and the points are appended to the overlay, in
order; nothing else changes. -/
theorem addStrokes_eq {Brush Point : Type} (pts : List Point) :
    ∀ (r : RemoteBoardEditor Brush Point),
      r.addStrokes pts =
        { r with
          session_ := { sent := r.session_.sent ++ pts.map Message.strokeInfo }
          board_ := { r.board_ with previews_ := r.board_.previews_ ++ pts } } := by
  induction pts with
  | nil =>
    intro r
    simp [RemoteBoardEditor.addStrokes]
  | cons p ps ih =>
    intro r
    have hstep : r.addStrokes (p :: ps) = (r.addStroke p).addStrokes ps := rfl
    rw [hstep, ih]
    simp [RemoteBoardEditor.addStroke, SessionState.sendStrokeInfo, Board.addPreview]

/-- C6 (remote variant): after `setTool(B)` and any run of further events
with no call of `setTool` among them (stroke calls, preview calls, local
colour changes, changes of the user's live brush made outside the editor),
`isCurrentBrush(b)` is true exactly when `b = B`. -/
theorem remote_isCurrentBrush_tracks_setTool {Brush Point : Type} [DecidableEq Brush]
    (r : RemoteBoardEditor Brush Point) (B b : Brush)
    (evs : List (RemoteEvent Brush Point))
    (hno : ∀ ev ∈ evs, ev.isSetTool = false) :
    (((r.setTool B).run evs).state.isCurrentBrush b = true ↔ b = B) := by
  have hl : ((r.setTool B).run evs).state.lastbrush_ = B :=
    run_keeps_lastbrush evs (r.setTool B) hno
  simp only [RemoteBoardEditor.isCurrentBrush, hl, decide_eq_true_eq]
  exact eq_comm

/-- Witness for C6: on the sample remote editor, after `setTool(5)` a stroke
is drawn while the user's live brush is changed to 9 outside the editor;
`isCurrentBrush(9)` is true exactly when 9 = 5, that is, it is false. -/
theorem remote_isCurrentBrush_tracks_setTool_witness :
    (∀ ev ∈ ([RemoteEvent.addStroke 1, RemoteEvent.userSetBrush 9,
        RemoteEvent.endStroke] : List (RemoteEvent Nat Nat)), ev.isSetTool = false) ∧
    ((((sampleRemote.setTool 5).run
        [RemoteEvent.addStroke 1, RemoteEvent.userSetBrush 9,
          RemoteEvent.endStroke]).state.isCurrentBrush 9 = true) ↔ 9 = 5) :=
  ⟨by simp [RemoteEvent.isSetTool],
    remote_isCurrentBrush_tracks_setTool sampleRemote 5 9
      [RemoteEvent.addStroke 1, RemoteEvent.userSetBrush 9, RemoteEvent.endStroke]
      (by simp [RemoteEvent.isSetTool])⟩

/-- C7 (remote variant; the overlay is the one modelled from the spec):
from a state with an empty overlay, `setTool(X)`, `addStroke` on each point of `pts`, `endStroke`
appends to the sent log exactly tool-info X, one stroke-info per point in
order, and stroke-end; just before `endStroke` the overlay holds exactly
`pts` and the log ends with the stroke-info messages; after `endStroke` the
overlay is empty; the user object is the initial one after every call. -/
theorem remote_stroke_scenario {Brush Point : Type} (r : RemoteBoardEditor Brush Point)
    (X : Brush) (pts : List Point) (hempty : r.board_.previews_ = []) :
    (((r.setTool X).addStrokes pts).endStroke).session_.sent =
      r.session_.sent ++
        (Message.toolInfo X :: (pts.map Message.strokeInfo ++ [Message.strokeEnd])) ∧
    ((r.setTool X).addStrokes pts).session_.sent =
      r.session_.sent ++ (Message.toolInfo X :: pts.map Message.strokeInfo) ∧
    (r.setTool X).board_.previews_ = [] ∧
    ((r.setTool X).addStrokes pts).board_.previews_ = pts ∧
    (((r.setTool X).addStrokes pts).endStroke).board_.previews_ = [] ∧
    (r.setTool X).user_ = r.user_ ∧
    ((r.setTool X).addStrokes pts).user_ = r.user_ ∧
    (((r.setTool X).addStrokes pts).endStroke).user_ = r.user_ := by
  rw [addStrokes_eq]
  simp [RemoteBoardEditor.setTool, RemoteBoardEditor.endStroke, SessionState.sendToolInfo,
    SessionState.sendStrokeEnd, Board.endPreview, hempty]

/-- Witness for C7: brush 5 and the points 1 and 2 on the sample remote
editor, whose overlay is empty and whose log is empty. -/
theorem remote_stroke_scenario_witness :
    sampleRemote.board_.previews_ = [] ∧
    ((((sampleRemote.setTool 5).addStrokes [1, 2]).endStroke).session_.sent =
      sampleRemote.session_.sent ++
        (Message.toolInfo 5 ::
          (([1, 2] : List Nat).map Message.strokeInfo ++ [Message.strokeEnd])) ∧
    ((sampleRemote.setTool 5).addStrokes [1, 2]).session_.sent =
      sampleRemote.session_.sent ++
        (Message.toolInfo 5 :: ([1, 2] : List Nat).map Message.strokeInfo) ∧
    (sampleRemote.setTool 5).board_.previews_ = [] ∧
    ((sampleRemote.setTool 5).addStrokes [1, 2]).board_.previews_ = [1, 2] ∧
    (((sampleRemote.setTool 5).addStrokes [1, 2]).endStroke).board_.previews_ = [] ∧
    (sampleRemote.setTool 5).user_ = sampleRemote.user_ ∧
    ((sampleRemote.setTool 5).addStrokes [1, 2]).user_ = sampleRemote.user_ ∧
    (((sampleRemote.setTool 5).addStrokes [1, 2]).endStroke).user_ = sampleRemote.user_) :=
  ⟨rfl, remote_stroke_scenario sampleRemote 5 [1, 2] rfl⟩

/-- The sent log after `k` calls of `setTool(B)` in a row. -/
theorem setToolTimes_sent {Brush Point : Type} (B : Brush) (k : Nat) :
    ∀ (r : RemoteBoardEditor Brush Point),
      (r.setToolTimes B k).session_.sent =
        r.session_.sent ++ List.replicate k (Message.toolInfo B) := by
  induction k with
  | zero => intro r; simp [RemoteBoardEditor.setToolTimes]
  | succ k ih =>
    intro r
    simp only [RemoteBoardEditor.setToolTimes]
    rw [ih]
    simp [RemoteBoardEditor.setTool, SessionState.sendToolInfo, List.replicate_succ]

/-- C8 (remote variant): `setTool(B)` appends exactly one tool-info B message
to the sent log in every state, also when `isCurrentBrush(B)` is already true
as it is right after a first `setTool(B)`; two calls in a row append two, and
`k` calls in a row append exactly `k`. -/
theorem remote_setTool_unconditional {Brush Point : Type} [DecidableEq Brush]
    (r : RemoteBoardEditor Brush Point) (B : Brush) (k : Nat) :
    (r.setTool B).session_.sent = r.session_.sent ++ [Message.toolInfo B] ∧
    (r.setTool B).isCurrentBrush B = true ∧
    ((r.setTool B).setTool B).session_.sent =
      r.session_.sent ++ [Message.toolInfo B, Message.toolInfo B] ∧
    (r.setToolTimes B k).session_.sent =
      r.session_.sent ++ List.replicate k (Message.toolInfo B) := by
  refine ⟨rfl, ?_, ?_, setToolTimes_sent B k r⟩
  · simp [RemoteBoardEditor.isCurrentBrush, RemoteBoardEditor.setTool]
  · simp [RemoteBoardEditor.setTool, SessionState.sendToolInfo]

/-- C10: a remote editor fresh from its constructor has sent nothing beyond
what the session already held and caches the brush `Brush(0,0,0)`:
`isCurrentBrush(b)` is true exactly when `b` is that brush, whatever the
user's live brush; so a caller that calls `setTool` only when
`isCurrentBrush` is false and whose brush is `Brush(0,0,0)` sends no
tool-info, and its first `addStroke` is the first message sent. -/
theorem remote_fresh_cached_brush {Brush Point : Type} [DecidableEq Brush]
    (mkBrush : Int → Int → Int → Brush)
    (board : Board Brush Point) (user : User Brush Point)
    (session : SessionState Brush Point)
    (brush : BrushSource Brush) (color : ColorSource) (b : Brush) (p : Point) :
    ((RemoteBoardEditor.create mkBrush board user session brush color).isCurrentBrush b
        = true ↔ b = mkBrush 0 0 0) ∧
    (RemoteBoardEditor.create mkBrush board user session brush color).session_.sent
      = session.sent ∧
    ((RemoteBoardEditor.create mkBrush board user session brush color).ensureBrush
        (mkBrush 0 0 0)).session_.sent = session.sent ∧
    (((RemoteBoardEditor.create mkBrush board user session brush color).ensureBrush
        (mkBrush 0 0 0)).addStroke p).session_.sent
      = session.sent ++ [Message.strokeInfo p] := by
  have hcur : (RemoteBoardEditor.create mkBrush board user session brush color).isCurrentBrush
      (mkBrush 0 0 0) = true := by
    simp [RemoteBoardEditor.isCurrentBrush, RemoteBoardEditor.create]
  refine ⟨?_, rfl, ?_, ?_⟩
  · simp only [RemoteBoardEditor.isCurrentBrush, RemoteBoardEditor.create,
      decide_eq_true_eq]
    exact eq_comm
  · simp only [RemoteBoardEditor.ensureBrush, hcur]
    rfl
  · simp only [RemoteBoardEditor.ensureBrush, hcur]
    rfl

/-! ## Local variant -/

/-- C9 (local variant): `isCurrentBrush(b)` is true exactly when the user's
live brush equals `b`, in every state; `setTool(b)` makes `b` the user's
live brush, so `isCurrentBrush(b)` holds right after it; the call changes
nothing but that brush (the editor holds no session to send through); and a
second `setTool(b)` changes nothing more. -/
theorem local_isCurrentBrush_setTool {Brush Point : Type} [DecidableEq Brush]
    (e : LocalBoardEditor Brush Point) (b : Brush) :
    (e.isCurrentBrush b = true ↔ e.user_.brush_ = b) ∧
    (e.setTool b).user_.brush_ = b ∧
    (e.setTool b).isCurrentBrush b = true ∧
    e.setTool b = { e with user_ := { e.user_ with brush_ := b } } ∧
    (e.setTool b).setTool b = e.setTool b := by
  refine ⟨?_, rfl, ?_, rfl, rfl⟩
  · simp [LocalBoardEditor.isCurrentBrush, User.brush]
  · simp [LocalBoardEditor.isCurrentBrush, LocalBoardEditor.setTool, User.brush,
      User.setBrush]

end drawingboard
